import Mathlib

/-!
Verification of hello_drmprime.c (jc-kynesim/hello_drmprime).

Shallow embedding of the program: the libav / libc collaborators
(avcodec_receive_frame, av_read_frame, fwrite, strtol, ...) are external,
so their return values appear as environment inputs; the control flow of
decode_write, get_hw_format, the format-negotiation block, the per-pass
read/flush/teardown sequence and the outer replay loop of main are
translated statement by statement from the C source.
-/

namespace HD

/-! ## External constants (libav / errno values) -/

/-- AVERROR(EAGAIN): EAGAIN is 11 on Linux, AVERROR negates. -/
def AVERROR_EAGAIN : Int := -11

/-- AVERROR(ENOMEM): ENOMEM is 12 on Linux. -/
def AVERROR_ENOMEM : Int := -12

/-- AVERROR_EOF = FFERRTAG of the characters E O F space, a fixed negative
sentinel distinct from every errno-derived code. -/
def AVERROR_EOF : Int := -541478725

/-- AV_PIX_FMT_NONE, the failure pixel format; its value -1 is also the
terminator the get_hw_format loop scans for. -/
def AV_PIX_FMT_NONE : Int := -1

/-- AV_PIX_FMT_DRM_PRIME: the fixed pixel format of the h264_v4l2m2m special
case.  The numeric value is immaterial to every theorem below (only that it
is one fixed value); it is pinned so the model stays executable. -/
def AV_PIX_FMT_DRM_PRIME : Int := 178

/-- AV_CODEC_HW_CONFIG_METHOD_HW_DEVICE_CTX, capability bit 0x01. -/
def AV_CODEC_HW_CONFIG_METHOD_HW_DEVICE_CTX : Nat := 1

/-! ## get_hw_format (hello_drmprime.c lines 66-78)

The C callback walks the -1 terminated array pix_fmts, returns the entry
equal to the global hw_pix_fmt if one occurs before the terminator, and
otherwise AV_PIX_FMT_NONE. -/

def get_hw_format (hw_pix_fmt : Int) : List Int → Int
  | [] => AV_PIX_FMT_NONE
  | p :: ps =>
    if p = -1 then AV_PIX_FMT_NONE
    else if p = hw_pix_fmt then p
    else get_hw_format hw_pix_fmt ps

/-! ## decode_write (hello_drmprime.c lines 80-162)

Environment of one loop iteration: either av_frame_alloc failed, or
avcodec_receive_frame returned a code; on success (code not negative) the
iteration holds the values the external libav calls produce for that frame:
its format, the av_hwframe_transfer_data result, whether av_malloc
succeeded, the av_image_get_buffer_size result, the av_image_copy_to_buffer
result and the fwrite return value. -/

structure FrameEv where
  format : Int
  transfer_ret : Int
  buf_alloc_ok : Bool
  size : Int
  copy_ret : Int
  write_ret : Int

inductive Step where
  | allocFail : Step
  | recv : Int → FrameEv → Step

/-- The dump block of decode_write (lines 115-149): value of the local ret
after the block, as an early goto-fail exit (error) or fall-through (ok,
carrying the fwrite return value, since ret is assigned from fwrite).
Note the source compares the fwrite result only against 0, never against
size, so a short write falls through. -/
def dumpExc (hw : Int) (fe : FrameEv) : Except Int Int :=
  if fe.format = hw ∧ fe.transfer_ret < 0 then Except.error fe.transfer_ret
  else if fe.buf_alloc_ok = false then Except.error AVERROR_ENOMEM
  else if fe.copy_ret < 0 then Except.error fe.copy_ret
  else if fe.write_ret < 0 then Except.error fe.write_ret
  else Except.ok fe.write_ret

/-- Number of fwrite calls the dump block performs (1 unless an earlier
failure jumps to fail before the fwrite). -/
def dumpW (hw : Int) (fe : FrameEv) : Nat :=
  if fe.format = hw ∧ fe.transfer_ret < 0 then 0
  else if fe.buf_alloc_ok = false then 0
  else if fe.copy_ret < 0 then 0
  else 1

/-- The for(;;) receive loop of decode_write.  State: f is the global
frames budget counter, d the count of drmprime_out_display calls so far,
w the count of fwrite calls so far.  Returns none only when the supplied
step list runs out without the loop terminating (an underspecified
environment, impossible for lists ending in a transient or error code).

Translation notes, in source order: the EAGAIN / EOF test precedes the
ret less-than-zero test; drmprime_out_display runs before the dump block;
the budget test `frames == 0 or else --frames == 0` runs after the dump
block and is skipped by its goto-fail exits; the trailing
`if (ret < 0) return ret` covers every fail path. -/
def dwLoop (hw : Int) (dump : Bool) : List Step → Int → Nat → Nat → Option (Int × Int × Nat × Nat)
  | [], _, _, _ => none
  | Step.allocFail :: _, f, d, w => some (AVERROR_ENOMEM, f, d, w)
  | Step.recv code fe :: rest, f, d, w =>
    if code = AVERROR_EAGAIN ∨ code = AVERROR_EOF then
      some (0, f, d, w)
    else if code < 0 then
      some (code, f, d, w)
    else
      let w1 := w + (if dump then dumpW hw fe else 0)
      match (if dump then dumpExc hw fe else Except.ok code) with
      | Except.error r => some (r, f, d + 1, w1)
      | Except.ok ret =>
        if f = 0 then some (-1, f, d + 1, w1)
        else if f - 1 = 0 then some (-1, f - 1, d + 1, w1)
        else if ret < 0 then some (ret, f - 1, d + 1, w1)
        else dwLoop hw dump rest (f - 1) (d + 1) w1

/-- decode_write: avcodec_send_packet result checked first (lines 90-94),
then the receive loop. -/
def decode_write (hw : Int) (dump : Bool) (send_ret : Int) (steps : List Step)
    (f : Int) (d w : Nat) : Option (Int × Int × Nat × Nat) :=
  if send_ret < 0 then some (send_ret, f, d, w)
  else dwLoop hw dump steps f d w

/-! ## The per-pass read loop of main (lines 318-327) -/

/-- One av_read_frame result: the packet's stream index plus, if it is fed,
the avcodec_send_packet result and the receive-loop environment. -/
structure PacketEv where
  stream_index : Int
  send_ret : Int
  steps : List Step

/-- while (ret >= 0) { read; if video stream then decode_write; } with the
packet list exhausted modelling av_read_frame returning AVERROR_EOF. -/
def readLoop (hw : Int) (dump : Bool) (vs : Int) : List PacketEv → Int → Nat → Nat → Option (Int × Int × Nat × Nat)
  | [], f, d, w => some (AVERROR_EOF, f, d, w)
  | p :: ps, f, d, w =>
    if p.stream_index = vs then
      match decode_write hw dump p.send_ret p.steps f d w with
      | none => none
      | some (r, f1, d1, w1) =>
        if r < 0 then some (r, f1, d1, w1)
        else readLoop hw dump vs ps f1 d1 w1
    else readLoop hw dump vs ps f d w

/-! ## Format negotiation (lines 275-296) -/

structure AVCodecHWConfig where
  methods : Nat
  device_type : Int
  pix_fmt : Int

/-- The qualification test of line 290-291: the methods bitmask carries
HW_DEVICE_CTX and the device type equals the requested one. -/
def cfgMatch (ty : Int) (c : AVCodecHWConfig) : Prop :=
  c.methods &&& AV_CODEC_HW_CONFIG_METHOD_HW_DEVICE_CTX ≠ 0 ∧ c.device_type = ty

instance (ty : Int) (c : AVCodecHWConfig) : Decidable (cfgMatch ty c) := by
  unfold cfgMatch; infer_instance

/-- The avcodec_get_hw_config enumeration loop: first entry whose methods
include HW_DEVICE_CTX and whose device_type equals the requested type;
none when the list is exhausted (the config == NULL exit, return -1). -/
def find_hw_pix_fmt (ty : Int) : List AVCodecHWConfig → Option Int
  | [] => none
  | c :: cs =>
    if cfgMatch ty c
    then some c.pix_fmt
    else find_hw_pix_fmt ty cs

inductive DecoderChoice where
  | original : DecoderChoice
  | h264_v4l2m2m : DecoderChoice

/-- Lines 275-296: H264 substitutes the h264_v4l2m2m decoder and the fixed
DRM_PRIME format (failing if that decoder is absent); any other codec
scans its hardware-configuration list.  none is the fatal return -1. -/
def negotiate (is_h264 v4l2_found : Bool) (cfgs : List AVCodecHWConfig) (ty : Int) :
    Option (DecoderChoice × Int) :=
  if is_h264 then
    if v4l2_found then some (DecoderChoice.h264_v4l2m2m, AV_PIX_FMT_DRM_PRIME)
    else none
  else
    (find_hw_pix_fmt ty cfgs).map (fun f => (DecoderChoice.original, f))

/-! ## One pass of main (label loopy, lines 255-342) -/

/-- External outcomes of the setup calls of one pass, plus the decode
environment. -/
structure PassEnv where
  open_ok : Bool
  find_info_ok : Bool
  best_stream : Option Int
  codec_is_h264 : Bool
  v4l2m2m_found : Bool
  hw_configs : List AVCodecHWConfig
  alloc_ctx_ok : Bool
  params_ok : Bool
  hwdev_ok : Bool
  codec_open_ok : Bool
  packets : List PacketEv
  flush_send : Int
  flush_steps : List Step

/-- The straight-line setup of a pass, lines 257-315, in source order:
avformat_open_input, avformat_find_stream_info, av_find_best_stream,
format negotiation, avcodec_alloc_context3, avcodec_parameters_to_context,
hw_decoder_init, avcodec_open2.  Every failure is a direct return from
main (run aborted); success yields the video stream index and the
negotiated hw_pix_fmt. -/
def passSetup (ty : Int) (env : PassEnv) : Except Int (Int × Int) :=
  if env.open_ok = false then Except.error (-1)
  else if env.find_info_ok = false then Except.error (-1)
  else
    match env.best_stream with
    | none => Except.error (-1)
    | some vs =>
      match negotiate env.codec_is_h264 env.v4l2m2m_found env.hw_configs ty with
      | none => Except.error (-1)
      | some (_, hw) =>
        if env.alloc_ctx_ok = false then Except.error AVERROR_ENOMEM
        else if env.params_ok = false then Except.error (-1)
        else if env.hwdev_ok = false then Except.error (-1)
        else if env.codec_open_ok = false then Except.error (-1)
        else Except.ok (vs, hw)

/-- Observable outcome of one pass: abort = some code models an early
return from main (teardown block skipped); teardown records whether the
fclose / avcodec_free_context / avformat_close_input / av_buffer_unref
block of lines 335-339 ran. -/
structure PassOut where
  abort : Option Int
  teardown : Bool
  displayed : Nat
  writes : Nat

/-- One pass: setup, frames = frame_count, read loop, unconditional flush
decode_write, teardown.  The flush result is discarded by the source
(lines 329-333) and the teardown block always follows it. -/
def runPass (ty : Int) (dp : Bool) (fc : Int) (env : PassEnv) : Option PassOut :=
  match passSetup ty env with
  | Except.error code => some ⟨some code, false, 0, 0⟩
  | Except.ok (vs, hw) =>
    match readLoop hw dp vs env.packets fc 0 0 with
    | none => none
    | some (_, f1, d1, w1) =>
      match decode_write hw dp env.flush_send env.flush_steps f1 d1 w1 with
      | none => none
      | some (_, _, d2, w2) => some ⟨none, true, d2, w2⟩

/-! ## The outer replay loop of main (lines 255, 341-342)

The dump file handle is opened once before the loop (lines 247-253) and is
the only state shared across passes; the model tracks whether it is still
open, how many times fclose ran on it, and how many fwrite calls happened
after it had been closed (writes to a dangling FILE pointer). -/

structure MainSt where
  file_open : Bool
  fcloses : Nat
  bad_writes : Nat
  passes : Nat
  displayed : Nat

structure MainOut where
  exit_code : Int
  passes : Nat
  displayed : Nat
  fcloses : Nat
  bad_writes : Nat

/-- loopy: run one pass; on abort return its code; otherwise
`if (--loop_count > 0) goto loopy`.  dp records output_file != NULL, which
the teardown fclose tests; the source never resets output_file to NULL, so
later passes still see it non-null. -/
def mainLoop (ty : Int) (dp : Bool) (fc : Int) (envs : Nat → PassEnv) (lc : Int) (k : Nat)
    (st : MainSt) : Option MainOut :=
  match runPass ty dp fc (envs k) with
  | none => none
  | some po =>
    let closed := dp && po.teardown
    let st' : MainSt :=
      ⟨st.file_open && !closed,
       st.fcloses + (if closed then 1 else 0),
       st.bad_writes + (if st.file_open then 0 else po.writes),
       st.passes + 1,
       st.displayed + po.displayed⟩
    match po.abort with
    | some code => some ⟨code, st'.passes, st'.displayed, st'.fcloses, st'.bad_writes⟩
    | none =>
      if lc - 1 > 0 then mainLoop ty dp fc envs (lc - 1) (k + 1) st'
      else some ⟨0, st'.passes, st'.displayed, st'.fcloses, st'.bad_writes⟩
termination_by lc.toNat
decreasing_by omega

/-- State at the loopy label: the dump handle is open iff a dump path was
configured (its fopen succeeding, else main already returned). -/
def mainStart (dp : Bool) : MainSt := ⟨dp, 0, 0, 0, 0⟩

/-! ## Argument parsing (lines 187-229)

strtol is libc and appears as an oracle parameter: some value when the
endptr check `*e == 0` passes, none otherwise. -/

structure ParseOut where
  in_file : Option String
  loop_count : Int
  frame_count : Int
  out_name : Option String

/-- a[0][0] == the dash character (false for the empty string, whose first
byte is the nul terminator). -/
def headIsDash (s : String) : Bool :=
  match s.data with
  | [] => false
  | c :: _ => c = '-'

/-- The while loop of lines 191-222 plus the checks of lines 225-228.
Invariant: the C counter n equals the length of the remaining list.
Exits: list exhausted means n reached -1 inside the condition, hence
usage; a non-dash head exits the loop with n = rest length, so usage
unless rest is empty, in which case that head is the input file; an
unknown dash argument is consumed, then break, so usage unless nothing
remains, in which case in_file = argv[argc] = NULL, modelled as none. -/
def argLoop (strtol : String → Option Int) : List String → Int → Int → Option String → Option ParseOut
  | [], _, _, _ => none
  | s :: rest, lc, fc, oname =>
    if headIsDash s then
      if s = "-l" ∨ s = "--loop" then
        match rest with
        | [] => none
        | v :: rest' =>
          match strtol v with
          | none => none
          | some val => argLoop strtol rest' val fc oname
      else if s = "-f" ∨ s = "--frames" then
        match rest with
        | [] => none
        | v :: rest' =>
          match strtol v with
          | none => none
          | some val => argLoop strtol rest' lc val oname
      else if s = "-o" then
        match rest with
        | [] => none
        | v :: rest' => argLoop strtol rest' lc fc (some v)
      else
        if rest = [] then some ⟨none, lc, fc, oname⟩ else none
    else
      if rest = [] then some ⟨some s, lc, fc, oname⟩ else none

/-- Lines 183-185: loop_count starts 0, frame_count starts -1, out_name
starts NULL; none is the usage() exit (exit code 1). -/
def parse_args (strtol : String → Option Int) (args : List String) : Option ParseOut :=
  argLoop strtol args 0 (-1) none

/-- A concrete strtol instance for witnesses: optional minus sign followed
by decimal digits (a restriction of strtol base 0 sufficient for the
literals the witnesses use). -/
def digitsAux : Nat → List Char → Option Nat
  | acc, [] => some acc
  | acc, c :: cs => if c.isDigit then digitsAux (acc * 10 + (c.toNat - 48)) cs else none

def strtolDec (s : String) : Option Int :=
  match s.data with
  | [] => none
  | '-' :: c :: cs => (digitsAux 0 (c :: cs)).map (fun n => -(n : Int))
  | cs => (digitsAux 0 cs).map (fun n => (n : Int))

/-! ## Budget / dispatch bookkeeping invariant

Relates the entry state (budget f, display count d) of a decode-loop
segment to its exit state (return value r, budget f', display count d').
Dispatches other than the one that zeroes the budget or hits a dump
failure decrement the budget, so d' + f' is conserved on non-negative
returns and grows by at most one on negative returns; the extra dispatch
without a decrement forces either f' positive (dump failure with budget
remaining) or a zero entry budget. -/

def InvAt (f : Int) (d : Nat) (r f' : Int) (d' : Nat) : Prop :=
  0 ≤ f' ∧ f' ≤ f ∧
  (0 ≤ r → ((d' : Int) + f' = (d : Int) + f ∧ (0 < f → 0 < f'))) ∧
  (r < 0 → ((d' : Int) + f' ≤ (d : Int) + f + 1 ∧
            (0 < f → f' = 0 → (d' : Int) + f' ≤ (d : Int) + f)))

/-! ## Error-free environments: unbounded budgets drain the whole stream -/

/-- The dump block succeeds on this frame (no transfer, allocation, copy
or fwrite failure); trivially true when the dump sink is off. -/
def GoodFe (hw : Int) (dump : Bool) (fe : FrameEv) : Prop :=
  dump = true →
    ((fe.format = hw → 0 ≤ fe.transfer_ret) ∧ fe.buf_alloc_ok = true ∧
     0 ≤ fe.copy_ret ∧ 0 ≤ fe.write_ret)

/-- A receive-step list that yields exactly n frames, all with successful
dump handling, and then signals EAGAIN or EOF. -/
inductive GoodSteps (hw : Int) (dump : Bool) : List Step → Nat → Prop where
  | term : ∀ (code : Int) (fe : FrameEv) (rest : List Step),
      (code = AVERROR_EAGAIN ∨ code = AVERROR_EOF) →
      GoodSteps hw dump (Step.recv code fe :: rest) 0
  | frame : ∀ (code : Int) (fe : FrameEv) (rest : List Step) (n : Nat),
      0 ≤ code → GoodFe hw dump fe → GoodSteps hw dump rest n →
      GoodSteps hw dump (Step.recv code fe :: rest) (n + 1)

/-- A packet list whose video packets feed successfully and yield N frames
in total between them. -/
inductive GoodPackets (hw : Int) (dump : Bool) (vs : Int) : List PacketEv → Nat → Prop where
  | nil : GoodPackets hw dump vs [] 0
  | vid : ∀ (p : PacketEv) (ps : List PacketEv) (n m : Nat),
      p.stream_index = vs → 0 ≤ p.send_ret → GoodSteps hw dump p.steps n →
      GoodPackets hw dump vs ps m → GoodPackets hw dump vs (p :: ps) (n + m)
  | other : ∀ (p : PacketEv) (ps : List PacketEv) (m : Nat),
      p.stream_index ≠ vs → GoodPackets hw dump vs ps m →
      GoodPackets hw dump vs (p :: ps) m

/-- A recognized flag token (the strings the while loop compares against). -/
def knownFlag (s : String) : Prop :=
  s = "-l" ∨ s = "--loop" ∨ s = "-f" ∨ s = "--frames" ∨ s = "-o"

/-- An unknown flag: starts with a dash but matches no recognized flag
(the else-break of line 220-221). -/
def unknownFlag (s : String) : Prop :=
  headIsDash s = true ∧ ¬ knownFlag s

/-- A list of arguments the while loop consumes entirely as flag / value
pairs (values passing the strtol endptr check where one is performed). -/
inductive FlagArgs (strtol : String → Option Int) : List String → Prop where
  | nil : FlagArgs strtol []
  | lshort : ∀ (v : String) (rest : List String) (n : Int),
      strtol v = some n → FlagArgs strtol rest → FlagArgs strtol ("-l" :: v :: rest)
  | llong : ∀ (v : String) (rest : List String) (n : Int),
      strtol v = some n → FlagArgs strtol rest → FlagArgs strtol ("--loop" :: v :: rest)
  | fshort : ∀ (v : String) (rest : List String) (n : Int),
      strtol v = some n → FlagArgs strtol rest → FlagArgs strtol ("-f" :: v :: rest)
  | flong : ∀ (v : String) (rest : List String) (n : Int),
      strtol v = some n → FlagArgs strtol rest → FlagArgs strtol ("--frames" :: v :: rest)
  | oflag : ∀ (v : String) (rest : List String),
      FlagArgs strtol rest → FlagArgs strtol ("-o" :: v :: rest)

instance (s : String) : Decidable (knownFlag s) := by
  unfold knownFlag; infer_instance

instance (s : String) : Decidable (unknownFlag s) := by
  unfold unknownFlag; infer_instance

/-! ## Concrete environments used by witnesses and counterexamples -/

/-- Command-line tokens used by concrete witnesses. -/
def argX : String := "-x"

def argQ : String := "-q"

def argFive : String := "5"

def argIn : String := "in.mkv"


/-- A frame whose external calls all succeed: software format 23 (distinct
from the negotiated 42), full write of its 100-byte buffer. -/
def feGood : FrameEv := ⟨23, 0, true, 100, 0, 100⟩

/-- A frame whose fwrite is short: the buffer size is 100 bytes but fwrite
reports only 50 written (a partial write, as on a full disk). -/
def feShort : FrameEv := ⟨23, 0, true, 100, 0, 50⟩

/-- A pass environment whose setup succeeds (device type 7, one matching
hardware configuration with pixel format 42), one video packet yielding
one frame then EAGAIN, and a flush yielding one trailing frame then EOF. -/
def envA : PassEnv :=
  ⟨true, true, some 0, false, false, [⟨1, 7, 42⟩], true, true, true, true,
   [⟨0, 0, [Step.recv 0 feGood, Step.recv AVERROR_EAGAIN feGood]⟩],
   0, [Step.recv 0 feGood, Step.recv AVERROR_EOF feGood]⟩

/-- Same stream shape as envA, used by the budget-1 counterexample. -/
def envB : PassEnv :=
  ⟨true, true, some 0, false, false, [⟨1, 7, 42⟩], true, true, true, true,
   [⟨0, 0, [Step.recv 0 feGood, Step.recv AVERROR_EAGAIN feGood]⟩],
   0, [Step.recv 0 feGood, Step.recv AVERROR_EOF feGood]⟩

/-- A pass environment that fails at avcodec_open2 (codec-open failure);
everything before it succeeds. -/
def envC6bad : PassEnv :=
  ⟨true, true, some 0, false, false, [⟨1, 7, 42⟩], true, true, true, false,
   [], 0, [Step.recv AVERROR_EOF feGood]⟩

/-- A trivial completing pass: no packets, flush signals EOF at once. -/
def envTriv : PassEnv :=
  ⟨true, true, some 0, false, false, [⟨1, 7, 42⟩], true, true, true, true,
   [], 0, [Step.recv AVERROR_EOF feGood]⟩

/-! ## Helper lemmas -/

lemma dumpExc_error_neg (hw : Int) (fe : FrameEv) (e : Int)
    (h : dumpExc hw fe = Except.error e) : e < 0 := by
  unfold dumpExc at h
  split_ifs at h with h1 h2 h3 h4
  · obtain ⟨-, hb⟩ := h1
    injection h with he
    omega
  · injection h with he
    rw [← he]
    norm_num [AVERROR_ENOMEM]
  · injection h with he
    omega
  · injection h with he
    omega

lemma dumpExc_ok_nonneg (hw : Int) (fe : FrameEv) (v : Int)
    (h : dumpExc hw fe = Except.ok v) : 0 ≤ v := by
  unfold dumpExc at h
  split_ifs at h with h1 h2 h3 h4
  injection h with he
  omega

lemma dwLoop_inv (hw : Int) (dump : Bool) :
    ∀ (steps : List Step) (f : Int) (d w : Nat) (r f' : Int) (d' w' : Nat),
    0 ≤ f → dwLoop hw dump steps f d w = some (r, f', d', w') → InvAt f d r f' d' := by
  intro steps
  induction steps with
  | nil =>
    intro f d w r f' d' w' hf h
    simp [dwLoop] at h
  | cons s rest ih =>
    intro f d w r f' d' w' hf h
    cases s with
    | allocFail =>
      simp only [dwLoop, Option.some.injEq, Prod.mk.injEq] at h
      obtain ⟨hr, hf1, hd1, -⟩ := h
      unfold InvAt
      simp only [AVERROR_ENOMEM] at hr
      omega
    | recv code fe =>
      simp only [dwLoop] at h
      by_cases hc1 : code = AVERROR_EAGAIN ∨ code = AVERROR_EOF
      · rw [if_pos hc1] at h
        simp only [Option.some.injEq, Prod.mk.injEq] at h
        obtain ⟨hr, hf1, hd1, -⟩ := h
        unfold InvAt
        omega
      · rw [if_neg hc1] at h
        by_cases hc2 : code < 0
        · rw [if_pos hc2] at h
          simp only [Option.some.injEq, Prod.mk.injEq] at h
          obtain ⟨hr, hf1, hd1, -⟩ := h
          unfold InvAt
          omega
        · rw [if_neg hc2] at h
          cases hdx : (if dump then dumpExc hw fe else Except.ok code) with
          | error r1 =>
            rw [hdx] at h
            dsimp only at h
            have hr1 : r1 < 0 := by
              cases dump with
              | false => simp at hdx
              | true =>
                exact dumpExc_error_neg hw fe r1 (by simpa using hdx)
            simp only [Option.some.injEq, Prod.mk.injEq] at h
            obtain ⟨hr, hf1, hd1, -⟩ := h
            unfold InvAt
            omega
          | ok ret =>
            rw [hdx] at h
            dsimp only at h
            have hret : 0 ≤ ret := by
              cases dump with
              | false =>
                have : Except.ok (ε := Int) code = Except.ok ret := by simpa using hdx
                injection this with he
                omega
              | true =>
                exact dumpExc_ok_nonneg hw fe ret (by simpa using hdx)
            by_cases hb1 : f = 0
            · rw [if_pos hb1] at h
              simp only [Option.some.injEq, Prod.mk.injEq] at h
              obtain ⟨hr, hf1, hd1, -⟩ := h
              unfold InvAt
              omega
            · rw [if_neg hb1] at h
              by_cases hb2 : f - 1 = 0
              · rw [if_pos hb2] at h
                simp only [Option.some.injEq, Prod.mk.injEq] at h
                obtain ⟨hr, hf1, hd1, -⟩ := h
                unfold InvAt
                omega
              · rw [if_neg hb2] at h
                by_cases hb3 : ret < 0
                · exact absurd hb3 (not_lt.mpr hret)
                · rw [if_neg hb3] at h
                  have hrec := ih (f - 1) (d + 1) _ r f' d' w' (by omega) h
                  unfold InvAt at hrec ⊢
                  omega

lemma decode_write_inv (hw : Int) (dump : Bool) (send : Int) (steps : List Step)
    (f : Int) (d w : Nat) (r f' : Int) (d' w' : Nat)
    (hf : 0 ≤ f) (h : decode_write hw dump send steps f d w = some (r, f', d', w')) :
    InvAt f d r f' d' := by
  unfold decode_write at h
  split_ifs at h with hs
  · simp only [Option.some.injEq, Prod.mk.injEq] at h
    obtain ⟨hr, hf1, hd1, -⟩ := h
    unfold InvAt
    omega
  · exact dwLoop_inv hw dump steps f d w r f' d' w' hf h

lemma readLoop_inv (hw : Int) (dump : Bool) (vs : Int) :
    ∀ (ps : List PacketEv) (f : Int) (d w : Nat) (r f' : Int) (d' w' : Nat),
    0 ≤ f → readLoop hw dump vs ps f d w = some (r, f', d', w') → InvAt f d r f' d' := by
  intro ps
  induction ps with
  | nil =>
    intro f d w r f' d' w' hf h
    simp only [readLoop, Option.some.injEq, Prod.mk.injEq] at h
    obtain ⟨hr, hf1, hd1, -⟩ := h
    unfold InvAt
    simp only [AVERROR_EOF] at hr
    omega
  | cons p ps ih =>
    intro f d w r f' d' w' hf h
    simp only [readLoop] at h
    by_cases hv : p.stream_index = vs
    · rw [if_pos hv] at h
      cases hdw : decode_write hw dump p.send_ret p.steps f d w with
      | none =>
        rw [hdw] at h
        simp at h
      | some t =>
        obtain ⟨r1, f1, d1, w1⟩ := t
        rw [hdw] at h
        dsimp only at h
        have hinv1 := decode_write_inv hw dump p.send_ret p.steps f d w r1 f1 d1 w1 hf hdw
        by_cases hr1 : r1 < 0
        · rw [if_pos hr1] at h
          simp only [Option.some.injEq, Prod.mk.injEq] at h
          obtain ⟨hr, hf1, hd1, -⟩ := h
          unfold InvAt at hinv1 ⊢
          omega
        · rw [if_neg hr1] at h
          have hinv2 := ih f1 d1 w1 r f' d' w' hinv1.1 h
          unfold InvAt at hinv1 hinv2 ⊢
          omega
    · rw [if_neg hv] at h
      exact ih f d w r f' d' w' hf h

/-- Budget bound for one whole pass: with a nonnegative configured budget
K the pass displays at most K + 1 frames, and at most 2 when K = 0 (the
read loop stops right after the first dispatched frame, the flush can add
one trailing frame). -/
lemma runPass_bound (ty : Int) (dp : Bool) (K : Int) (env : PassEnv) (po : PassOut)
    (hK : 0 ≤ K) (h : runPass ty dp K env = some po) :
    (0 < K → (po.displayed : Int) ≤ K + 1) ∧ (K = 0 → po.displayed ≤ 2) := by
  unfold runPass at h
  cases hsetup : passSetup ty env with
  | error code =>
    rw [hsetup] at h
    dsimp only at h
    injection h with hpo
    rw [← hpo]
    exact ⟨fun _ => by show (0 : Int) ≤ K + 1; omega, fun _ => by norm_num⟩
  | ok t =>
    obtain ⟨vs, hw⟩ := t
    rw [hsetup] at h
    dsimp only at h
    cases hrl : readLoop hw dp vs env.packets K 0 0 with
    | none =>
      rw [hrl] at h
      simp at h
    | some t1 =>
      obtain ⟨rR, fR, dR, wR⟩ := t1
      rw [hrl] at h
      dsimp only at h
      have hIR := readLoop_inv hw dp vs env.packets K 0 0 rR fR dR wR hK hrl
      cases hfl : decode_write hw dp env.flush_send env.flush_steps fR dR wR with
      | none =>
        rw [hfl] at h
        simp at h
      | some t2 =>
        obtain ⟨rF, fF, dF, wF⟩ := t2
        rw [hfl] at h
        dsimp only at h
        have hIF := decode_write_inv hw dp env.flush_send env.flush_steps fR dR wR rF fF dF wF hIR.1 hfl
        injection h with hpo
        rw [← hpo]
        unfold InvAt at hIR hIF
        refine ⟨fun hKpos => ?_, fun hK0 => ?_⟩
        · show (dF : Int) ≤ K + 1
          omega
        · show dF ≤ 2
          omega

lemma good_dump_ok (hw : Int) (dump : Bool) (code : Int) (fe : FrameEv)
    (hcode : 0 ≤ code) (hfe : GoodFe hw dump fe) :
    ∃ v, (if dump then dumpExc hw fe else Except.ok code) = Except.ok v ∧ 0 ≤ v := by
  cases dump with
  | false => exact ⟨code, rfl, hcode⟩
  | true =>
    obtain ⟨h1, h2, h3, h4⟩ := hfe rfl
    refine ⟨fe.write_ret, ?_, h4⟩
    show dumpExc hw fe = Except.ok fe.write_ret
    unfold dumpExc
    split_ifs with g1 g2 g3 g4
    · exact absurd g1.2 (not_lt.mpr (h1 g1.1))
    · rw [h2] at g2
      exact absurd g2 (by simp)
    · exact absurd g3 (not_lt.mpr h3)
    · exact absurd g4 (not_lt.mpr h4)
    · rfl

lemma dwLoop_good (hw : Int) (dump : Bool) :
    ∀ (steps : List Step) (n : Nat) (f : Int) (d w : Nat),
    f < 0 → GoodSteps hw dump steps n →
    ∃ w', dwLoop hw dump steps f d w = some (0, f - n, d + n, w') := by
  intro steps n f d w hf hgs
  induction hgs generalizing f d w with
  | term code fe rest hcode =>
    refine ⟨w, ?_⟩
    simp only [dwLoop]
    rw [if_pos hcode]
    norm_num
  | frame code fe rest n hcode hfe hrest ih =>
    have hc1 : ¬ (code = AVERROR_EAGAIN ∨ code = AVERROR_EOF) := by
      rintro (rfl | rfl) <;> simp [AVERROR_EAGAIN, AVERROR_EOF] at hcode
    have hc2 : ¬ code < 0 := not_lt.mpr hcode
    obtain ⟨v, hdx, hv⟩ := good_dump_ok hw dump code fe hcode hfe
    obtain ⟨w', hrec⟩ := ih (f - 1) (d + 1) (w + (if dump then dumpW hw fe else 0)) (by omega)
    refine ⟨w', ?_⟩
    simp only [dwLoop]
    rw [if_neg hc1, if_neg hc2, hdx]
    dsimp only
    rw [if_neg (by omega : ¬ f = 0), if_neg (by omega : ¬ f - 1 = 0), if_neg (not_lt.mpr hv)]
    rw [hrec]
    have hfe' : f - 1 - (n : Int) = f - ((n : Nat) + 1 : Nat) := by push_cast; ring
    have hde' : d + 1 + n = d + (n + 1) := by omega
    rw [hfe', hde']

lemma readLoop_good (hw : Int) (dump : Bool) (vs : Int) :
    ∀ (ps : List PacketEv) (N : Nat) (f : Int) (d w : Nat),
    f < 0 → GoodPackets hw dump vs ps N →
    ∃ w', readLoop hw dump vs ps f d w = some (AVERROR_EOF, f - N, d + N, w') := by
  intro ps N f d w hf hgp
  induction hgp generalizing f d w with
  | nil =>
    refine ⟨w, ?_⟩
    simp only [readLoop]
    norm_num
  | vid p ps n m hvs hsend hsteps hps ih =>
    obtain ⟨w1, hdw⟩ := dwLoop_good hw dump p.steps n f d w hf hsteps
    obtain ⟨w', hrec⟩ := ih (f - n) (d + n) w1 (by omega)
    refine ⟨w', ?_⟩
    simp only [readLoop]
    rw [if_pos hvs]
    unfold decode_write
    rw [if_neg (not_lt.mpr hsend), hdw]
    dsimp only
    rw [if_neg (by norm_num : ¬ (0 : Int) < 0)]
    rw [hrec]
    have hfe' : f - (n : Int) - (m : Int) = f - ((n + m : Nat) : Int) := by push_cast; ring
    have hde' : d + n + m = d + (n + m) := by omega
    rw [hfe', hde']
  | other p ps m hvs hps ih =>
    obtain ⟨w', hrec⟩ := ih f d w hf
    refine ⟨w', ?_⟩
    simp only [readLoop]
    rw [if_neg hvs]
    exact hrec

/-- An unbounded (negative) budget never stops the pass: every frame of
the pass environment is displayed, including the trailing flush frames. -/
lemma runPass_good (ty : Int) (dp : Bool) (fc : Int) (env : PassEnv) (vs hw : Int) (N M : Nat)
    (hfc : fc < 0) (hsetup : passSetup ty env = Except.ok (vs, hw))
    (hpk : GoodPackets hw dp vs env.packets N) (hfs : 0 ≤ env.flush_send)
    (hgs : GoodSteps hw dp env.flush_steps M) :
    ∃ w', runPass ty dp fc env = some ⟨none, true, N + M, w'⟩ := by
  obtain ⟨w1, hrl⟩ := readLoop_good hw dp vs env.packets N fc 0 0 hfc hpk
  obtain ⟨w2, hfl⟩ := dwLoop_good hw dp env.flush_steps M (fc - N) (0 + N) w1 (by omega) hgs
  refine ⟨w2, ?_⟩
  unfold runPass
  rw [hsetup]
  dsimp only
  rw [hrl]
  dsimp only
  unfold decode_write
  rw [if_neg (not_lt.mpr hfs), hfl]
  have : 0 + N + M = N + M := by omega
  rw [this]

/-- The replay loop: if every pass completes without an early return from
main, the loop body runs exactly max(loop_count, 1) times, mirroring the
decrement-then-test `if (--loop_count > 0) goto loopy`. -/
lemma mainLoop_complete (ty : Int) (dp : Bool) (fc : Int) (envs : Nat → PassEnv)
    (H : ∀ j, ∃ po, runPass ty dp fc (envs j) = some po ∧ po.abort = none) :
    ∀ (n : Nat) (lc : Int), lc.toNat ≤ n → ∀ (k : Nat) (st : MainSt),
    ∃ out, mainLoop ty dp fc envs lc k st = some out ∧
      (out.passes : Int) = (st.passes : Int) + max lc 1 := by
  intro n
  induction n with
  | zero =>
    intro lc hlc k st
    obtain ⟨po, hpo, habort⟩ := H k
    unfold mainLoop
    rw [hpo]
    dsimp only
    rw [habort]
    dsimp only
    rw [if_neg (by omega : ¬ lc - 1 > 0)]
    refine ⟨_, rfl, ?_⟩
    dsimp only
    omega
  | succ n ih =>
    intro lc hlc k st
    obtain ⟨po, hpo, habort⟩ := H k
    by_cases hgt : lc - 1 > 0
    · unfold mainLoop
      rw [hpo]
      dsimp only
      rw [habort]
      dsimp only
      rw [if_pos hgt]
      obtain ⟨out, hout, hp⟩ := ih (lc - 1) (by omega) (k + 1)
        ⟨st.file_open && !(dp && po.teardown),
         st.fcloses + (if dp && po.teardown then 1 else 0),
         st.bad_writes + (if st.file_open then 0 else po.writes),
         st.passes + 1,
         st.displayed + po.displayed⟩
      refine ⟨out, hout, ?_⟩
      dsimp only at hp
      omega
    · unfold mainLoop
      rw [hpo]
      dsimp only
      rw [habort]
      dsimp only
      rw [if_neg hgt]
      refine ⟨_, rfl, ?_⟩
      dsimp only
      omega

/-! ## Negotiation and get_hw_format helper lemmas -/

lemma find_hw_pix_fmt_skip (ty : Int) :
    ∀ (pre : List AVCodecHWConfig) (tail : List AVCodecHWConfig),
    (∀ x ∈ pre, ¬ cfgMatch ty x) →
    find_hw_pix_fmt ty (pre ++ tail) = find_hw_pix_fmt ty tail := by
  intro pre
  induction pre with
  | nil => intro tail _; rfl
  | cons c cs ih =>
    intro tail hpre
    have hc : ¬ cfgMatch ty c := hpre c (List.mem_cons_self c cs)
    have hstep : find_hw_pix_fmt ty ((c :: cs) ++ tail) =
        (if cfgMatch ty c then some c.pix_fmt else find_hw_pix_fmt ty (cs ++ tail)) := rfl
    rw [hstep, if_neg hc]
    exact ih tail (fun x hx => hpre x (List.mem_cons_of_mem c hx))

lemma find_hw_pix_fmt_none (ty : Int) :
    ∀ (cfgs : List AVCodecHWConfig), (∀ x ∈ cfgs, ¬ cfgMatch ty x) →
    find_hw_pix_fmt ty cfgs = none := by
  intro cfgs
  induction cfgs with
  | nil => intro _; rfl
  | cons c cs ih =>
    intro hall
    have hstep : find_hw_pix_fmt ty (c :: cs) =
        (if cfgMatch ty c then some c.pix_fmt else find_hw_pix_fmt ty cs) := rfl
    rw [hstep, if_neg (hall c (List.mem_cons_self c cs))]
    exact ih (fun x hx => hall x (List.mem_cons_of_mem c hx))

lemma get_hw_format_spec (hw : Int) (junk : List Int) :
    ∀ (offered : List Int), (-1 : Int) ∉ offered → hw ≠ -1 →
    get_hw_format hw (offered ++ -1 :: junk) =
      (if hw ∈ offered then hw else AV_PIX_FMT_NONE) := by
  intro offered
  induction offered with
  | nil =>
    intro _ _
    have hstep : get_hw_format hw (([] : List Int) ++ -1 :: junk) = AV_PIX_FMT_NONE := rfl
    rw [hstep]
    simp
  | cons p ps ih =>
    intro hnt hne
    have hp1 : p ≠ -1 := fun hp => hnt (hp ▸ List.mem_cons_self p ps)
    have hstep : get_hw_format hw ((p :: ps) ++ -1 :: junk) =
        (if p = -1 then AV_PIX_FMT_NONE
         else if p = hw then p
         else get_hw_format hw (ps ++ -1 :: junk)) := rfl
    rw [hstep, if_neg hp1]
    by_cases hph : p = hw
    · rw [if_pos hph, if_pos (by rw [hph]; exact List.mem_cons_self hw ps)]
      exact hph
    · rw [if_neg hph, ih (fun hm => hnt (List.mem_cons_of_mem p hm)) hne]
      by_cases hmem : hw ∈ ps
      · rw [if_pos hmem, if_pos (List.mem_cons_of_mem p hmem)]
      · rw [if_neg hmem, if_neg (by
          intro hcc
          rcases List.mem_cons.mp hcc with hcc1 | hcc2
          · exact hph hcc1.symm
          · exact hmem hcc2)]

lemma argLoop_lshort (strtol : String → Option Int) (v : String) (rest : List String)
    (lc fc : Int) (onm : Option String) :
    argLoop strtol ("-l" :: v :: rest) lc fc onm =
      (match strtol v with
       | none => none
       | some val => argLoop strtol rest val fc onm) := rfl

lemma argLoop_llong (strtol : String → Option Int) (v : String) (rest : List String)
    (lc fc : Int) (onm : Option String) :
    argLoop strtol ("--loop" :: v :: rest) lc fc onm =
      (match strtol v with
       | none => none
       | some val => argLoop strtol rest val fc onm) := rfl

lemma argLoop_fshort (strtol : String → Option Int) (v : String) (rest : List String)
    (lc fc : Int) (onm : Option String) :
    argLoop strtol ("-f" :: v :: rest) lc fc onm =
      (match strtol v with
       | none => none
       | some val => argLoop strtol rest lc val onm) := rfl

lemma argLoop_flong (strtol : String → Option Int) (v : String) (rest : List String)
    (lc fc : Int) (onm : Option String) :
    argLoop strtol ("--frames" :: v :: rest) lc fc onm =
      (match strtol v with
       | none => none
       | some val => argLoop strtol rest lc val onm) := rfl

lemma argLoop_oflag (strtol : String → Option Int) (v : String) (rest : List String)
    (lc fc : Int) (onm : Option String) :
    argLoop strtol ("-o" :: v :: rest) lc fc onm = argLoop strtol rest lc fc (some v) := rfl

lemma argLoop_unknown (strtol : String → Option Int) (u : String) (rest : List String)
    (lc fc : Int) (onm : Option String) (hu : unknownFlag u) :
    argLoop strtol (u :: rest) lc fc onm =
      (if rest = [] then some ⟨none, lc, fc, onm⟩ else none) := by
  obtain ⟨hdash, hknown⟩ := hu
  have h1 : ¬ (u = "-l" ∨ u = "--loop") := by
    intro hx
    exact hknown (hx.elim (fun a => Or.inl a) (fun a => Or.inr (Or.inl a)))
  have h2 : ¬ (u = "-f" ∨ u = "--frames") := by
    intro hx
    exact hknown (hx.elim (fun a => Or.inr (Or.inr (Or.inl a)))
      (fun a => Or.inr (Or.inr (Or.inr (Or.inl a)))))
  have h3 : ¬ u = "-o" := fun a => hknown (Or.inr (Or.inr (Or.inr (Or.inr a))))
  unfold argLoop
  rw [if_pos hdash, if_neg h1, if_neg h2, if_neg h3]

lemma argLoop_nondash (strtol : String → Option Int) (s : String) (rest : List String)
    (lc fc : Int) (onm : Option String) (hs : headIsDash s = false) :
    argLoop strtol (s :: rest) lc fc onm =
      (if rest = [] then some ⟨some s, lc, fc, onm⟩ else none) := by
  unfold argLoop
  rw [if_neg (by rw [hs]; simp)]

/-- Consuming a well-formed flag prefix only changes the accumulators. -/
lemma argLoop_skip (strtol : String → Option Int) (pre : List String)
    (h : FlagArgs strtol pre) :
    ∀ (tail : List String) (lc fc : Int) (onm : Option String),
    ∃ lc' fc' onm', argLoop strtol (pre ++ tail) lc fc onm = argLoop strtol tail lc' fc' onm' := by
  induction h with
  | nil => exact fun tail lc fc onm => ⟨lc, fc, onm, rfl⟩
  | lshort v rest n hv _ ih =>
    intro tail lc fc onm
    have hstep : ("-l" :: v :: rest) ++ tail = "-l" :: v :: (rest ++ tail) := rfl
    rw [hstep, argLoop_lshort, hv]
    exact ih tail n fc onm
  | llong v rest n hv _ ih =>
    intro tail lc fc onm
    have hstep : ("--loop" :: v :: rest) ++ tail = "--loop" :: v :: (rest ++ tail) := rfl
    rw [hstep, argLoop_llong, hv]
    exact ih tail n fc onm
  | fshort v rest n hv _ ih =>
    intro tail lc fc onm
    have hstep : ("-f" :: v :: rest) ++ tail = "-f" :: v :: (rest ++ tail) := rfl
    rw [hstep, argLoop_fshort, hv]
    exact ih tail lc n onm
  | flong v rest n hv _ ih =>
    intro tail lc fc onm
    have hstep : ("--frames" :: v :: rest) ++ tail = "--frames" :: v :: (rest ++ tail) := rfl
    rw [hstep, argLoop_flong, hv]
    exact ih tail lc n onm
  | oflag v rest _ ih =>
    intro tail lc fc onm
    have hstep : ("-o" :: v :: rest) ++ tail = "-o" :: v :: (rest ++ tail) := rfl
    rw [hstep, argLoop_oflag]
    exact ih tail lc fc (some v)

/-! ## Claims -/

/-- C1: for every run (modelled from the loopy label on, with every pass
completing rather than returning early from main), the number of playback
passes executed equals max(configured_replay_count, 1): with loop_count
unset or 0 (the default) exactly one pass runs, with N at least 1 exactly
N passes run, mirroring `if (--loop_count > 0) goto loopy`. -/
theorem claim1_replay_pass_count (ty : Int) (dp : Bool) (fc : Int)
    (envs : Nat → PassEnv) (lc : Int)
    (H : ∀ j, ∃ po, runPass ty dp fc (envs j) = some po ∧ po.abort = none) :
    ∃ out, mainLoop ty dp fc envs lc 0 (mainStart dp) = some out ∧
      (out.passes : Int) = max lc 1 := by
  obtain ⟨out, hout, hp⟩ :=
    mainLoop_complete ty dp fc envs H lc.toNat lc (le_refl _) 0 (mainStart dp)
  refine ⟨out, hout, ?_⟩
  have hst : (mainStart dp).passes = 0 := rfl
  rw [hst] at hp
  omega

/-- Witness for C1 at loop counts 3 and 0 with a trivially completing
pass environment. -/
theorem claim1_witness :
    (∃ out, mainLoop 7 false (-1) (fun _ => envTriv) 3 0 (mainStart false) = some out ∧
      (out.passes : Int) = max 3 1) ∧
    (∃ out, mainLoop 7 false (-1) (fun _ => envTriv) 0 0 (mainStart false) = some out ∧
      (out.passes : Int) = max 0 1) :=
  ⟨claim1_replay_pass_count 7 false (-1) (fun _ => envTriv) 3
      (fun _ => ⟨⟨none, true, 0, 0⟩, rfl, rfl⟩),
   claim1_replay_pass_count 7 false (-1) (fun _ => envTriv) 0
      (fun _ => ⟨⟨none, true, 0, 0⟩, rfl, rfl⟩)⟩

/-- C2 counterexample: with frame budget K = 1 the pass of envB dispatches
2 frames, not at most 1.  The first dispatched frame zeroes the budget and
stops the read loop, but the unconditional flush (line 332) displays one
more trailing frame before the zero budget is tested, so the claim that at
most K frames are dispatched per pass counting read loop and flush is
false at K = 1. -/
theorem claim2_counterexample :
    runPass 7 false 1 envB = some ⟨none, true, 2, 0⟩ ∧ ¬ ((2 : Nat) ≤ 1) :=
  ⟨rfl, by norm_num⟩

/-- C2 (amended): with a frame budget K greater than 0 a pass dispatches at
most K + 1 frames — at most K inside the read loop and at most one extra
trailing frame in the flush after a budget stop; with a negative budget
(the unbounded sentinel, -1 by default) dispatch continues until the
stream is exhausted: every frame of an error-free environment is
dispatched, in the read loop and in the flush. -/
theorem claim2_budget_bound (ty : Int) (dp : Bool) (env : PassEnv) (K : Int) (po : PassOut)
    (h : runPass ty dp K env = some po) :
    (0 < K → (po.displayed : Int) ≤ K + 1) ∧
    (K < 0 → ∀ (vs hw : Int) (N M : Nat),
      passSetup ty env = Except.ok (vs, hw) →
      GoodPackets hw dp vs env.packets N → 0 ≤ env.flush_send →
      GoodSteps hw dp env.flush_steps M → po.displayed = N + M) := by
  constructor
  · intro hK
    exact (runPass_bound ty dp K env po (le_of_lt hK) h).1 hK
  · intro hK vs hw N M hsetup hpk hfs hgs
    obtain ⟨w2, hrun⟩ := runPass_good ty dp K env vs hw N M hK hsetup hpk hfs hgs
    rw [h] at hrun
    injection hrun with hpo
    rw [hpo]

/-- Witness for C2: the pass of envA under budget 3 dispatches 2 frames,
within the bound 3 + 1; under the unbounded budget -1 it dispatches all
1 + 1 frames of its error-free environment. -/
theorem claim2_witness :
    (PassOut.displayed ⟨none, true, 2, 0⟩ : Int) ≤ 3 + 1 ∧
    PassOut.displayed ⟨none, true, 2, 0⟩ = 1 + 1 := by
  have hfe : GoodFe 42 false feGood := fun hc => nomatch hc
  have hgsA : GoodSteps 42 false [Step.recv 0 feGood, Step.recv AVERROR_EAGAIN feGood] 1 :=
    GoodSteps.frame 0 feGood _ 0 (le_refl 0) hfe
      (GoodSteps.term AVERROR_EAGAIN feGood [] (Or.inl rfl))
  have hgsF : GoodSteps 42 false [Step.recv 0 feGood, Step.recv AVERROR_EOF feGood] 1 :=
    GoodSteps.frame 0 feGood _ 0 (le_refl 0) hfe
      (GoodSteps.term AVERROR_EOF feGood [] (Or.inr rfl))
  have hgp : GoodPackets 42 false 0 envA.packets 1 := by
    show GoodPackets 42 false 0
      [⟨0, 0, [Step.recv 0 feGood, Step.recv AVERROR_EAGAIN feGood]⟩] 1
    exact GoodPackets.vid ⟨0, 0, [Step.recv 0 feGood, Step.recv AVERROR_EAGAIN feGood]⟩ []
      1 0 rfl (le_refl 0) hgsA GoodPackets.nil
  have h3 : runPass 7 false 3 envA = some ⟨none, true, 2, 0⟩ := rfl
  have hm1 : runPass 7 false (-1) envA = some ⟨none, true, 2, 0⟩ := rfl
  exact ⟨(claim2_budget_bound 7 false envA 3 ⟨none, true, 2, 0⟩ h3).1 (by norm_num),
         (claim2_budget_bound 7 false envA (-1) ⟨none, true, 2, 0⟩ hm1).2 (by norm_num)
           0 42 1 1 rfl hgp (le_refl 0) hgsF⟩

/-- C3: a drain step returning EAGAIN or EOF is not surfaced as an error —
decode_write frees the frames and returns 0; any other negative receive
result is returned as is (a fatal decode error), and it stops the pass
read loop at once: the remaining packets are never processed. -/
theorem claim3_transient_not_error (hw : Int) (dump : Bool) (code : Int) (fe : FrameEv)
    (rest : List Step) (f : Int) (d w : Nat) :
    ((code = AVERROR_EAGAIN ∨ code = AVERROR_EOF) →
        dwLoop hw dump (Step.recv code fe :: rest) f d w = some (0, f, d, w)) ∧
    (code < 0 → code ≠ AVERROR_EAGAIN → code ≠ AVERROR_EOF →
        dwLoop hw dump (Step.recv code fe :: rest) f d w = some (code, f, d, w) ∧
        ∀ (vs sr : Int) (ps : List PacketEv), 0 ≤ sr →
          readLoop hw dump vs (⟨vs, sr, Step.recv code fe :: rest⟩ :: ps) f d w =
            some (code, f, d, w)) := by
  constructor
  · intro hc
    simp only [dwLoop]
    rw [if_pos hc]
  · intro hneg h1 h2
    have hc : ¬ (code = AVERROR_EAGAIN ∨ code = AVERROR_EOF) := by
      rintro (h | h)
      exacts [h1 h, h2 h]
    have hdw : dwLoop hw dump (Step.recv code fe :: rest) f d w = some (code, f, d, w) := by
      simp only [dwLoop]
      rw [if_neg hc, if_pos hneg]
    refine ⟨hdw, fun vs sr ps hsr => ?_⟩
    simp only [readLoop]
    rw [if_pos trivial]
    unfold decode_write
    rw [if_neg (not_lt.mpr hsr), hdw]
    dsimp only
    rw [if_pos hneg]

/-- Witness for C3: EAGAIN yields success 0; the receive result -7 is
returned as the error and ends the read loop before the second packet. -/
theorem claim3_witness :
    dwLoop 42 false [Step.recv AVERROR_EAGAIN feGood] 5 0 0 = some (0, 5, 0, 0) ∧
    dwLoop 42 false [Step.recv (-7) feGood] 5 0 0 = some (-7, 5, 0, 0) ∧
    readLoop 42 false 0 [⟨0, 0, [Step.recv (-7) feGood]⟩, ⟨0, 0, [Step.recv 0 feGood]⟩]
      5 0 0 = some (-7, 5, 0, 0) :=
  ⟨(claim3_transient_not_error 42 false AVERROR_EAGAIN feGood [] 5 0 0).1 (Or.inl rfl),
   ((claim3_transient_not_error 42 false (-7) feGood [] 5 0 0).2
      (by decide) (by decide) (by decide)).1,
   ((claim3_transient_not_error 42 false (-7) feGood [] 5 0 0).2
      (by decide) (by decide) (by decide)).2 0 0 [⟨0, 0, [Step.recv 0 feGood]⟩] (le_refl 0)⟩

/-- Equation lemma for one unrolling of the replay loop of main when the
current pass completes without aborting. -/
lemma mainLoop_eq (ty : Int) (dp : Bool) (fc : Int) (envs : Nat → PassEnv) (lc : Int) (k : Nat)
    (st : MainSt) (po : PassOut) (hpo : runPass ty dp fc (envs k) = some po)
    (habort : po.abort = none) :
    mainLoop ty dp fc envs lc k st =
      (if lc - 1 > 0 then
        mainLoop ty dp fc envs (lc - 1) (k + 1)
          ⟨st.file_open && !(dp && po.teardown),
           st.fcloses + (if dp && po.teardown then 1 else 0),
           st.bad_writes + (if st.file_open then 0 else po.writes),
           st.passes + 1, st.displayed + po.displayed⟩
      else some ⟨0, st.passes + 1, st.displayed + po.displayed,
                 st.fcloses + (if dp && po.teardown then 1 else 0),
                 st.bad_writes + (if st.file_open then 0 else po.writes)⟩) := by
  conv_lhs => unfold mainLoop
  rw [hpo]
  dsimp only
  rw [habort]

/-- C4: the source closes the dump file handle inside every pass teardown
(lines 335-336) although the handle is opened only once, before the replay
loop (lines 247-253), and the output_file pointer is never reset.  With a
dump path configured and loop count 2 the handle is fclosed at the end of
pass 1 — it does not stay open between passes — and both fwrite calls of
pass 2 hit the already-closed FILE handle (counted by bad_writes); the
teardown then fcloses it a second time.  The run still exits 0. -/
theorem claim4_dump_handle_closed_between_passes :
    mainLoop 7 true (-1) (fun _ => envA) 2 0 (mainStart true) = some ⟨0, 2, 4, 2, 2⟩ := by
  have h1 : runPass 7 true (-1) envA = some ⟨none, true, 2, 2⟩ := rfl
  rw [mainLoop_eq 7 true (-1) (fun _ => envA) 2 0 (mainStart true) ⟨none, true, 2, 2⟩ h1 rfl]
  rw [if_pos (by norm_num)]
  rw [mainLoop_eq 7 true (-1) (fun _ => envA) (2 - 1) (0 + 1) _ ⟨none, true, 2, 2⟩ h1 rfl]
  rw [if_neg (by norm_num)]
  rfl

/-- C5: format negotiation.  The H264 special case substitutes the fixed
h264_v4l2m2m decoder and the fixed DRM_PRIME pixel format for every
configuration list (the list is bypassed entirely); for any other codec
the first qualifying entry — device-context acceleration bit set and
matching device type — after any run of non-qualifying entries supplies
the pixel format; and an exhausted list is the fatal failure. -/
theorem claim5_format_negotiation (ty : Int) :
    (∀ (cfgs : List AVCodecHWConfig),
        negotiate true true cfgs ty = some (DecoderChoice.h264_v4l2m2m, AV_PIX_FMT_DRM_PRIME)) ∧
    (∀ (vf : Bool) (pre : List AVCodecHWConfig) (c : AVCodecHWConfig)
        (rest : List AVCodecHWConfig),
        (∀ x ∈ pre, ¬ cfgMatch ty x) → cfgMatch ty c →
        negotiate false vf (pre ++ c :: rest) ty = some (DecoderChoice.original, c.pix_fmt)) ∧
    (∀ (vf : Bool) (cfgs : List AVCodecHWConfig),
        (∀ x ∈ cfgs, ¬ cfgMatch ty x) → negotiate false vf cfgs ty = none) := by
  refine ⟨fun cfgs => rfl, fun vf pre c rest hpre hc => ?_, fun vf cfgs hall => ?_⟩
  · show (find_hw_pix_fmt ty (pre ++ c :: rest)).map (fun f => (DecoderChoice.original, f)) = _
    rw [find_hw_pix_fmt_skip ty pre (c :: rest) hpre]
    have hstep : find_hw_pix_fmt ty (c :: rest) =
        (if cfgMatch ty c then some c.pix_fmt else find_hw_pix_fmt ty rest) := rfl
    rw [hstep, if_pos hc]
    rfl
  · show (find_hw_pix_fmt ty cfgs).map (fun f => (DecoderChoice.original, f)) = _
    rw [find_hw_pix_fmt_none ty cfgs hall]
    rfl

/-- Witness for C5 at device type 7: the H264 bypass; a list whose entries
at positions 0 and 1 do not qualify (missing bit, wrong type) and whose
entry at position 2 qualifies with pixel format 42; and an all-unqualified
list failing. -/
theorem claim5_witness :
    negotiate true true [⟨0, 0, 0⟩] 7 =
      some (DecoderChoice.h264_v4l2m2m, AV_PIX_FMT_DRM_PRIME) ∧
    negotiate false false ([⟨0, 7, 11⟩, ⟨1, 5, 12⟩] ++ ⟨1, 7, 42⟩ :: [⟨1, 7, 99⟩]) 7 =
      some (DecoderChoice.original, 42) ∧
    negotiate false true [⟨0, 7, 11⟩] 7 = none :=
  ⟨(claim5_format_negotiation 7).1 [⟨0, 0, 0⟩],
   (claim5_format_negotiation 7).2.1 false [⟨0, 7, 11⟩, ⟨1, 5, 12⟩] ⟨1, 7, 42⟩ [⟨1, 7, 99⟩]
     (by decide) (by decide),
   (claim5_format_negotiation 7).2.2 true [⟨0, 7, 11⟩] (by decide)⟩

/-- C6 counterexample: a pass whose avcodec_open2 fails returns -1 from
main immediately (line 312-315): the close block of lines 335-339 does not
run, so teardown does not happen on the codec-open-failure exit path,
contrary to the claim that it runs on every exit path. -/
theorem claim6_counterexample :
    runPass 7 false (-1) envC6bad = some ⟨some (-1), false, 0, 0⟩ := rfl

/-- C6 (amended): the close/teardown block does run on every exit of the
decode stage — success, budget stop or decode/flush error — i.e. whenever
the pass setup (open, stream info, stream find, negotiation, context
alloc, params, device init, codec open) succeeded; failures before and
including codec open return from main without the per-pass teardown. -/
theorem claim6_teardown_after_decode (ty : Int) (dp : Bool) (fc : Int) (env : PassEnv)
    (vs hw : Int) (po : PassOut)
    (hsetup : passSetup ty env = Except.ok (vs, hw))
    (h : runPass ty dp fc env = some po) :
    po.teardown = true ∧ po.abort = none := by
  unfold runPass at h
  rw [hsetup] at h
  dsimp only at h
  cases hrl : readLoop hw dp vs env.packets fc 0 0 with
  | none =>
    rw [hrl] at h
    simp at h
  | some t1 =>
    obtain ⟨r1, f1, d1, w1⟩ := t1
    rw [hrl] at h
    dsimp only at h
    cases hfl : decode_write hw dp env.flush_send env.flush_steps f1 d1 w1 with
    | none =>
      rw [hfl] at h
      simp at h
    | some t2 =>
      obtain ⟨r2, f2, d2, w2⟩ := t2
      rw [hfl] at h
      dsimp only at h
      injection h with hpo
      rw [← hpo]
      exact ⟨rfl, rfl⟩

/-- Witness for C6 (amended) on the trivially completing environment. -/
theorem claim6_witness :
    PassOut.teardown ⟨none, true, 0, 0⟩ = true ∧
    PassOut.abort ⟨none, true, 0, 0⟩ = none :=
  claim6_teardown_after_decode 7 false (-1) envTriv 0 42 ⟨none, true, 0, 0⟩ rfl rfl

/-- C7: a short dump write is not detected.  fwrite returns the number of
items written, never a negative value, and the source tests only
`ret < 0` (line 145), so a write of 50 of the 100 buffer bytes — a short
write, as on a full disk — passes the check: the pass continues and
decode_write returns success 0 instead of the WriteError the claim
requires.  The error branch for fwrite is dead code, so the claim matches
the evident intent and the check is the bug. -/
theorem claim7_short_write_not_error :
    feShort.write_ret < feShort.size ∧ 0 ≤ feShort.write_ret ∧
    decode_write 42 true 0 [Step.recv 0 feShort, Step.recv AVERROR_EAGAIN feShort]
      (-1) 0 0 = some (0, -2, 1, 1) :=
  ⟨by decide, by decide, rfl⟩

/-- C8 counterexample: with budget exactly 0, the pass of envA dispatches
2 frames, not exactly one: the read loop dispatches the first decoded
frame and stops (frames == 0 holds after the dispatch), then the flush
dispatches one more trailing frame before its own budget test. -/
theorem claim8_counterexample :
    runPass 7 false 0 envA = some ⟨none, true, 2, 0⟩ ∧ (2 : Nat) ≠ 1 :=
  ⟨rfl, by norm_num⟩

/-- C8 (amended): budget 0 is observably distinct from the unbounded
sentinel -1, but it stops each decode call after its first dispatched
frame rather than after exactly one frame in the pass: a budget-0 pass
dispatches at most two frames (one in the read loop, one trailing in the
flush), while with -1 every frame of an error-free environment is
dispatched. -/
theorem claim8_budget_zero_vs_unbounded (ty : Int) (dp : Bool) (env : PassEnv) (po0 : PassOut)
    (h0 : runPass ty dp 0 env = some po0) :
    po0.displayed ≤ 2 ∧
    (∀ (po1 : PassOut), runPass ty dp (-1) env = some po1 →
      ∀ (vs hw : Int) (N M : Nat), passSetup ty env = Except.ok (vs, hw) →
        GoodPackets hw dp vs env.packets N → 0 ≤ env.flush_send →
        GoodSteps hw dp env.flush_steps M → po1.displayed = N + M) := by
  constructor
  · exact (runPass_bound ty dp 0 env po0 (le_refl 0) h0).2 rfl
  · intro po1 h1 vs hw N M hsetup hpk hfs hgs
    obtain ⟨w2, hrun⟩ := runPass_good ty dp (-1) env vs hw N M (by norm_num) hsetup hpk hfs hgs
    rw [h1] at hrun
    injection hrun with hpo
    rw [hpo]

/-- Witness for C8 on envA: the budget-0 pass dispatches 2 frames, within
the bound; the budget minus-1 pass dispatches all 1 + 1 frames. -/
theorem claim8_witness :
    PassOut.displayed ⟨none, true, 2, 0⟩ ≤ 2 ∧
    PassOut.displayed ⟨none, true, 2, 0⟩ = 1 + 1 := by
  have hfe : GoodFe 42 false feGood := fun hc => nomatch hc
  have hgsA : GoodSteps 42 false [Step.recv 0 feGood, Step.recv AVERROR_EAGAIN feGood] 1 :=
    GoodSteps.frame 0 feGood _ 0 (le_refl 0) hfe
      (GoodSteps.term AVERROR_EAGAIN feGood [] (Or.inl rfl))
  have hgsF : GoodSteps 42 false [Step.recv 0 feGood, Step.recv AVERROR_EOF feGood] 1 :=
    GoodSteps.frame 0 feGood _ 0 (le_refl 0) hfe
      (GoodSteps.term AVERROR_EOF feGood [] (Or.inr rfl))
  have hgp : GoodPackets 42 false 0 envA.packets 1 := by
    show GoodPackets 42 false 0
      [⟨0, 0, [Step.recv 0 feGood, Step.recv AVERROR_EAGAIN feGood]⟩] 1
    exact GoodPackets.vid ⟨0, 0, [Step.recv 0 feGood, Step.recv AVERROR_EAGAIN feGood]⟩ []
      1 0 rfl (le_refl 0) hgsA GoodPackets.nil
  have h0 : runPass 7 false 0 envA = some ⟨none, true, 2, 0⟩ := rfl
  have hm1 : runPass 7 false (-1) envA = some ⟨none, true, 2, 0⟩ := rfl
  exact ⟨(claim8_budget_zero_vs_unbounded 7 false envA ⟨none, true, 2, 0⟩ h0).1,
         (claim8_budget_zero_vs_unbounded 7 false envA ⟨none, true, 2, 0⟩ h0).2
           ⟨none, true, 2, 0⟩ hm1 0 42 1 1 rfl hgp (le_refl 0) hgsF⟩

/-- C9 counterexample: on the command line consisting of the single
unknown flag-like token argX (the string dash x) the positional input is
absent, yet the parser does not report usage: the token is consumed by
the while loop, the break leaves zero remaining arguments, n = 0 skips
usage(), and in_file is read from argv[argc], the NULL terminator
(in_file none here); main then proceeds and later fails opening the NULL
input with exit code -1, not the usage exit 1 the claim requires. -/
theorem claim9_counterexample :
    parse_args strtolDec [argX] = some ⟨none, 0, -1, none⟩ ∧ unknownFlag argX :=
  ⟨rfl, by decide⟩

/-- C9 (amended): after any well-formed flag/value prefix, an unknown flag
followed by at least one further argument causes the usage exit, and a
command line consisting of flags only (the positional input absent)
causes the usage exit — except in one case: when the unknown flag is the
final argument, parsing succeeds with a NULL input file and the failure
surfaces later as an input-open error with a different exit code. -/
theorem claim9_usage_errors (strtol : String → Option Int) (pre : List String)
    (hpre : FlagArgs strtol pre) :
    (∀ (u : String) (rest : List String), unknownFlag u → rest ≠ [] →
        parse_args strtol (pre ++ u :: rest) = none) ∧
    parse_args strtol pre = none ∧
    (∀ (u : String), unknownFlag u →
        ∃ po, parse_args strtol (pre ++ [u]) = some po ∧ po.in_file = none) := by
  refine ⟨?_, ?_, ?_⟩
  · intro u rest hu hrest
    unfold parse_args
    obtain ⟨lc2, fc2, onm2, hskip⟩ := argLoop_skip strtol pre hpre (u :: rest) 0 (-1) none
    rw [hskip, argLoop_unknown strtol u rest lc2 fc2 onm2 hu, if_neg hrest]
  · unfold parse_args
    obtain ⟨lc2, fc2, onm2, hskip⟩ := argLoop_skip strtol pre hpre [] 0 (-1) none
    rw [← List.append_nil pre, hskip]
    rfl
  · intro u hu
    obtain ⟨lc2, fc2, onm2, hskip⟩ := argLoop_skip strtol pre hpre [u] 0 (-1) none
    refine ⟨⟨none, lc2, fc2, onm2⟩, ?_, rfl⟩
    unfold parse_args
    rw [hskip, argLoop_unknown strtol u [] lc2 fc2 onm2 hu, if_pos rfl]

/-- Witness for C9 after the prefix dash-l five: an unknown flag before
the input gives usage, flags without an input give usage, and a final
unknown flag escapes with a NULL input file. -/
theorem claim9_witness :
    parse_args strtolDec (["-l", argFive] ++ argQ :: [argIn]) = none ∧
    parse_args strtolDec ["-l", argFive] = none ∧
    (∃ po, parse_args strtolDec (["-l", argFive] ++ [argQ]) = some po ∧ po.in_file = none) := by
  have hflag : FlagArgs strtolDec ["-l", argFive] :=
    FlagArgs.lshort argFive [] 5 rfl FlagArgs.nil
  exact ⟨(claim9_usage_errors strtolDec ["-l", argFive] hflag).1 argQ [argIn]
           (by decide) (by simp),
         (claim9_usage_errors strtolDec ["-l", argFive] hflag).2.1,
         (claim9_usage_errors strtolDec ["-l", argFive] hflag).2.2 argQ (by decide)⟩

/-- C10: the get_hw_format callback returns the negotiated hardware pixel
format exactly when that format occurs in the offered list (the entries
before the -1 terminator); otherwise it returns AV_PIX_FMT_NONE, and it
never returns any other entry of the list.  The hypotheses record that
the negotiated format is a real format (not the NONE sentinel) and that
the offered entries precede the terminator. -/
theorem claim10_hw_format_callback (hw : Int) (offered junk : List Int)
    (hne : hw ≠ -1) (hterm : (-1 : Int) ∉ offered) :
    (get_hw_format hw (offered ++ -1 :: junk) = hw ↔ hw ∈ offered) ∧
    (hw ∉ offered → get_hw_format hw (offered ++ -1 :: junk) = AV_PIX_FMT_NONE) ∧
    (get_hw_format hw (offered ++ -1 :: junk) = hw ∨
     get_hw_format hw (offered ++ -1 :: junk) = AV_PIX_FMT_NONE) := by
  have hspec := get_hw_format_spec hw junk offered hterm hne
  by_cases hmem : hw ∈ offered
  · rw [hspec, if_pos hmem]
    exact ⟨⟨fun _ => hmem, fun _ => rfl⟩, fun hc => absurd hmem hc, Or.inl rfl⟩
  · rw [hspec, if_neg hmem]
    refine ⟨⟨fun hc => absurd hc.symm hne, fun hc => absurd hc hmem⟩, fun _ => rfl, Or.inr rfl⟩

/-- Witness for C10: negotiated format 7 offered at position 1 is
returned; negotiated format 8 not offered yields NONE. -/
theorem claim10_witness :
    (get_hw_format 7 ([5, 7] ++ -1 :: [9]) = 7 ↔ (7 : Int) ∈ ([5, 7] : List Int)) ∧
    ((8 : Int) ∉ ([5, 7] : List Int) →
      get_hw_format 8 ([5, 7] ++ -1 :: [9]) = AV_PIX_FMT_NONE) :=
  ⟨(claim10_hw_format_callback 7 [5, 7] [9] (by decide) (by decide)).1,
   (claim10_hw_format_callback 8 [5, 7] [9] (by decide) (by decide)).2.1⟩

end HD
